import Mathlib

/-!
Verification of the filezap vendor-form filler engine.

This file gives a shallow embedding of `src/form_filler_engine.py` into Lean 4
and settles the frozen claims about it.  The embedding conventions:

* Python strings are Lean `String`s; the Python string operations used by the
  source (`strip`, `lower`, `rstrip(":")`, substring `in`, the two regular
  expressions of the source) are re-implemented over `List Char` so that every
  definition evaluates by kernel reduction.
* Python dicts that are built by repeated assignment and then iterated in
  insertion order (`label_map`, `cells_to_fill`) are modelled as association
  lists with an `upsert` operation: assignment to an existing key overwrites
  in place, assignment to a fresh key appends.
* openpyxl cell coordinates are modelled post-parse as `(row, column)` pairs,
  exactly the value `coordinate_to_tuple` produces for a valid `"B3"`-style
  reference.  A worksheet is its cell store (an association list, since
  `ws[coord] = v` creates absent cells) plus its set of merged ranges.
* pdfplumber geometry (floats in the source) is modelled with `Int`
  coordinates; every comparison and tolerance constant of the source is kept.
* Effects on the filesystem are modelled by returning the artifacts that the
  source writes (the filled structures, the fill-guide line list, the count).
-/

namespace FileZap

/-! ## Python string primitives -/

/-- The characters Python `str.strip()` removes: space, tab, newline, carriage
return, vertical tab, form feed. -/
def isPyWS (c : Char) : Bool :=
  c = ' ' || c = '\t' || c = '\n' || c = '\r' || c = Char.ofNat 11 || c = Char.ofNat 12

/-- `str.strip()` on the character list. -/
def pyStripList (l : List Char) : List Char :=
  ((l.dropWhile isPyWS).reverse.dropWhile isPyWS).reverse

/-- Python `s.strip()`. -/
def pyStrip (s : String) : String :=
  String.mk (pyStripList s.data)

/-- Python `s.lower()` (ASCII, which is all the source's labels use). -/
def pyLower (s : String) : String :=
  String.mk (s.data.map Char.toLower)

/-- Python `s.rstrip(":")`: drop every trailing colon. -/
def rstripColon (s : String) : String :=
  String.mk ((s.data.reverse.dropWhile (· = ':')).reverse)

/-- Python `needle in hay` for one-character or longer needles:
`needle.isPrefixOf` some suffix of `hay`. -/
def listContainsSub (needle : List Char) : List Char → Bool
  | [] => needle.isEmpty
  | c :: t => needle.isPrefixOf (c :: t) || listContainsSub needle t

/-- Python `needle in hay` on strings. -/
def strContains (hay needle : String) : Bool :=
  listContainsSub needle.data hay.data

/-- One attempt of the source's `re.sub(r'\s*\(.*?\)\s*', '', s)` at the scan
position: consume the `.*?` part up to the first `)`. `.` does not match a
newline, so a newline before the closing parenthesis kills the match. -/
def parensClose : List Char → Option (List Char)
  | [] => none
  | c :: rest => if c = ')' then some rest else if c = '\n' then none else parensClose rest

/-- Try to match `\s*\(.*?\)\s*` at the head of `l`; on success return the
remainder after the greedy trailing `\s*`. -/
def parensTry (l : List Char) : Option (List Char) :=
  match l.dropWhile isPyWS with
  | '(' :: rest => (parensClose rest).map (List.dropWhile isPyWS)
  | _ => none

/-- Left-to-right scan of `re.sub(r'\s*\(.*?\)\s*', '', s)`: at each position
either the pattern matches (and is deleted, the scan resuming after it) or the
character is kept.  Each successful match consumes at least two characters, so
the input length is enough fuel. -/
def subParensAux : Nat → List Char → List Char
  | 0, l => l
  | _ + 1, [] => []
  | fuel + 1, c :: rest =>
    match parensTry (c :: rest) with
    | some l2 => subParensAux fuel l2
    | none => c :: subParensAux fuel rest

/-- The source's parenthetical-stripping regex substitution,
`re.sub(r'\s*\(.*?\)\s*', '', s)`. -/
def subParens (s : String) : String :=
  String.mk (subParensAux s.data.length s.data)

/-! ## The FieldMapping record and the dict model -/

/-- One element of the mapping-service response, as the writers read it with
`m.get(...)`: a key that is absent (or that holds JSON `null`) is `none`.
Cell coordinates are modelled post-parse as `(row, column)` pairs. -/
structure FieldMapping where
  form_label : Option String := none
  form_cell : Option (Nat × Nat) := none
  placeholder : Option String := none
  value : Option String := none
  confidence : Option String := none
deriving DecidableEq, Repr

/-- The claim's usability predicate: `value` present and not the sentinel
`"null"`. -/
def hasUsableValue (m : FieldMapping) : Bool :=
  match m.value with
  | some v => v ≠ "null"
  | none => false

/-- Replace the confidence field, leaving everything else alone (used to state
that the writers never consult confidence). -/
def setConfidence (conf : Option String) (m : FieldMapping) : FieldMapping :=
  { m with confidence := conf }

/-- Python dict assignment `d[k] = v` for a dict iterated in insertion order:
overwrite in place if the key exists, else append. -/
def upsert {κ ν : Type} [DecidableEq κ] (al : List (κ × ν)) (k : κ) (v : ν) : List (κ × ν) :=
  if al.any (fun p => p.1 = k) then al.map (fun p => if p.1 = k then (k, v) else p)
  else al ++ [(k, v)]

/-- First value stored under key `k` (dict lookup; keys are unique under
`upsert`). -/
def lookupKey {κ ν : Type} [DecidableEq κ] (al : List (κ × ν)) (k : κ) : Option ν :=
  (al.find? (fun p => p.1 = k)).map (·.2)

/-! ## Spreadsheet writer (`fill_xlsx`) -/

/-- An openpyxl merged cell range `A1:B2`, by its row/column bounds. -/
structure MergedRange where
  minRow : Nat
  minCol : Nat
  maxRow : Nat
  maxCol : Nat
deriving DecidableEq, Repr

/-- The containment test of `fill_xlsx` line 219:
`mc.min_row <= row <= mc.max_row and mc.min_col <= col <= mc.max_col`. -/
def MergedRange.containsCoord (mc : MergedRange) (c : Nat × Nat) : Bool :=
  decide (mc.minRow ≤ c.1) && decide (c.1 ≤ mc.maxRow) &&
  decide (mc.minCol ≤ c.2) && decide (c.2 ≤ mc.maxCol)

/-- `row == mc.min_row and col == mc.min_col`: the top-left anchor test. -/
def MergedRange.isAnchor (mc : MergedRange) (c : Nat × Nat) : Bool :=
  decide (c.1 = mc.minRow) && decide (c.2 = mc.minCol)

/-- A worksheet: its populated cells (`ws[coord] = v` creates missing ones, so
an association list) and its merged ranges. -/
structure Sheet where
  cells : List ((Nat × Nat) × String)
  merged : List MergedRange
deriving DecidableEq, Repr

/-- A workbook: `load_workbook` gives the sheet list; `wb.active` is the sheet
at the stored active index. -/
structure Workbook where
  sheets : List Sheet
  activeIdx : Nat
deriving DecidableEq, Repr

def emptySheet : Sheet := ⟨[], []⟩

/-- `wb.active`. -/
def Workbook.active (wb : Workbook) : Sheet :=
  wb.sheets.getD wb.activeIdx emptySheet

/-- Value of a cell, `none` when the coordinate is not populated. -/
def Sheet.cellValue (s : Sheet) (c : Nat × Nat) : Option String :=
  lookupKey s.cells c

/-- One iteration of `fill_xlsx` lines 209–213: an entry enters the dict
exactly when `m.get("form_cell")` and `m.get("value")` are both truthy and the
value is not the sentinel `"null"`. -/
def cellsToFillStep (acc : List ((Nat × Nat) × String)) (m : FieldMapping) :
    List ((Nat × Nat) × String) :=
  match m.form_cell, m.value with
  | some c, some v => if v ≠ "" && v ≠ "null" then upsert acc c v else acc
  | _, _ => acc

/-- `fill_xlsx` lines 208–213: the `cells_to_fill` dict. -/
def buildCellsToFill (mappings : List FieldMapping) : List ((Nat × Nat) × String) :=
  mappings.foldl cellsToFillStep []

/-- `fill_xlsx` lines 217–223: a merged range is unmerged when some target
coordinate lies inside it away from the top-left anchor. -/
def affectedBy (targets : List (Nat × Nat)) (mc : MergedRange) : Bool :=
  targets.any (fun c => mc.containsCoord c && !(mc.isAnchor c))

/-- `ws.unmerge_cells(str(mc))`: remove the (unique) range from the merged set;
the merged set of a valid workbook holds each range once. -/
def removeRange (l : List MergedRange) (mc : MergedRange) : List MergedRange :=
  match l with
  | [] => []
  | x :: rest => if x = mc then rest else x :: removeRange rest mc

/-- `fill_xlsx` lines 216–223: iterate a snapshot of the merged ranges and
unmerge each one that contains a non-anchor target. -/
def unmergeLoop (merged : List MergedRange) (targets : List (Nat × Nat)) : List MergedRange :=
  merged.foldl (fun cur mc => if affectedBy targets mc then removeRange cur mc else cur) merged

/-- `fill_xlsx` (lines 200–232): build `cells_to_fill`, unmerge the affected
ranges of the active sheet, then write every entry (`ws[cell] = value`) and
count it.  Only the active sheet is ever touched. -/
def fillXlsx (wb : Workbook) (mappings : List FieldMapping) : Workbook × Nat :=
  let ws := wb.active
  let ctf := buildCellsToFill mappings
  let merged2 := unmergeLoop ws.merged (ctf.map Prod.fst)
  let cells2 := ctf.foldl (fun cs p => upsert cs p.1 p.2) ws.cells
  ({ wb with sheets := wb.sheets.set wb.activeIdx ⟨cells2, merged2⟩ }, ctf.length)

/-! ## Word-processor writer (`fill_docx`) -/

/-- A docx table cell: `tc` is the identity of the underlying `CT_Tc` XML
element (merged cells of a row share it), `text` is `cell.text`; cells are
modelled with their text as a single run, which is also what the writer leaves
behind. -/
structure DCell where
  tc : Nat
  text : String
deriving DecidableEq, Repr

/-- `fill_docx` lines 263–269: keep the first cell for each underlying `_tc`. -/
def uniqueCellsAux : List DCell → List Nat → List DCell
  | [], _ => []
  | c :: rest, seen =>
    if seen.contains c.tc then uniqueCellsAux rest seen
    else c :: uniqueCellsAux rest (c.tc :: seen)

def uniqueCells (cells : List DCell) : List DCell :=
  uniqueCellsAux cells []

/-- The label normalisation of `fill_docx` (lines 245 and 272):
`.strip().lower().rstrip(":")`. -/
def normDocx (s : String) : String :=
  rstripColon (pyLower (pyStrip s))

/-- One iteration of `fill_docx` lines 244–252: the label and (when different)
its parenthetical-free alias (`re.sub(...).strip()`, line 250 — no colon strip
on the alias) map to the value. -/
def labelMapDocxStep (lm : List (String × String)) (m : FieldMapping) : List (String × String) :=
  let label := normDocx (m.form_label.getD "")
  match m.value with
  | some v =>
    if label ≠ "" && v ≠ "" && v ≠ "null" then
      let lm1 := upsert lm label v
      let clean := pyStrip (subParens label)
      if clean ≠ "" && clean ≠ label then upsert lm1 clean v else lm1
    else lm
  | none => lm

/-- `fill_docx` lines 241–252: the `label_map` dict. -/
def buildLabelMapDocx (mappings : List FieldMapping) : List (String × String) :=
  mappings.foldl labelMapDocxStep []

/-- `fill_docx` lines 277–290: direct lookup, then the parenthetical-free
lookup, then the first label that is a substring of the cell text or contains
it. -/
def docxMatch (lm : List (String × String)) (ct ctClean : String) : Option String :=
  match lookupKey lm ct with
  | some v => some v
  | none =>
    match (if ctClean ≠ "" then lookupKey lm ctClean else none) with
    | some v => some v
    | none => (lm.find? (fun p => strContains ct p.1 || strContains p.1 ct)).map (·.2)

/-- The per-row loop of `fill_docx` strategy 1 (lines 271–313), over the
deduplicated cells.  The loop index `i` advances by one each step; fuel equal
to the (stable) cell count makes the recursion structural.  A write replaces
the next cell's text, and later iterations see it. -/
def rowLoopAux (lm : List (String × String)) :
    Nat → List DCell → Nat → Nat → List DCell × Nat
  | 0, cells, _, count => (cells, count)
  | fuel + 1, cells, i, count =>
    match cells[i]? with
    | none => (cells, count)
    | some cell =>
      let ct := normDocx cell.text
      if ct = "" then rowLoopAux lm fuel cells (i + 1) count
      else
        let ctClean := rstripColon (pyStrip (subParens ct))
        match docxMatch lm ct ctClean with
        | none => rowLoopAux lm fuel cells (i + 1) count
        | some v =>
          match cells[i + 1]? with
          | none => rowLoopAux lm fuel cells (i + 1) count
          | some next =>
            let existing := pyStrip next.text
            if existing ≠ "" && strContains existing ":" then
              rowLoopAux lm fuel cells (i + 1) count
            else
              rowLoopAux lm fuel (cells.set (i + 1) ⟨next.tc, v⟩) (i + 1) (count + 1)

/-- Strategy 1 on one table row: deduplicate merged cells, then run the loop. -/
def processTableRow (lm : List (String × String)) (row : List DCell) : List DCell × Nat :=
  let u := uniqueCells row
  rowLoopAux lm u.length u 0 0

/-- Case-insensitive literal match of `label` against the head of `l`
(the `re.IGNORECASE` flag on an `re.escape`d label). -/
def stripLabelCI : List Char → List Char → Option (List Char)
  | [], l => some l
  | _ :: _, [] => none
  | a :: as, b :: bs => if a.toLower = b.toLower then stripLabelCI as bs else none

/-- Is every character a blank-run character, i.e. in `[_\s]`? -/
def blankTail (l : List Char) : Bool :=
  l.all (fun c => c = '_' || isPyWS c)

/-- After the label, the inline pattern requires `\s*:\s*[_\s]*$`: optional
whitespace, a mandatory colon, then only underscores/whitespace to the end. -/
def afterLabelMatch (l : List Char) : Bool :=
  match l.dropWhile isPyWS with
  | ':' :: rest => blankTail rest
  | _ => false

/-- Attempt the inline pattern at the current scan position. -/
def inlineTryAt (label l : List Char) : Bool :=
  match stripLabelCI label l with
  | some rest => afterLabelMatch rest
  | none => false

/-- `re.search` of `re.escape(label) + r'\s*:\s*[_\s]*$'` (IGNORECASE): try
every start position. -/
def inlineSearch (label : List Char) : List Char → Bool
  | [] => inlineTryAt label []
  | c :: t => inlineTryAt label (c :: t) || inlineSearch label t

/-- `re.sub(r'(:\s*)[_\s]*$', '\\1' + value, text)`: at the leftmost colon
whose tail is all underscores/whitespace, keep the colon and its immediate
whitespace run (the captured group) and replace the rest with the value. -/
def inlineSubAux (value : List Char) : List Char → List Char
  | [] => []
  | c :: rest =>
    if c = ':' && blankTail rest then
      ':' :: (rest.takeWhile isPyWS ++ value)
    else c :: inlineSubAux value rest

/-- One (label, value) pass of `fill_docx` strategy 2 over one paragraph
(lines 316–335): if the pattern matches, rewrite the paragraph text. -/
def inlineStep (label value text : String) : String × Bool :=
  if inlineSearch label.data text.data then
    (String.mk (inlineSubAux value.data text.data), true)
  else (text, false)

/-- Strategy 2 on one paragraph: every label of the map is tried in insertion
order, each successful match rewriting the (current) text and counting one
fill. -/
def inlineParagraph (lm : List (String × String)) (text : String) : String × Nat :=
  lm.foldl (fun acc p =>
    let r := inlineStep p.1 p.2 acc.1
    if r.2 then (r.1, acc.2 + 1) else acc) (text, 0)

/-- A docx document as the writer sees it: tables (list of rows of grid cells,
merged duplicates included) and paragraph texts. -/
structure DocxDoc where
  tables : List (List (List DCell))
  paragraphs : List String
deriving DecidableEq, Repr

/-- `fill_docx` (lines 235–339): build the label map, run the table strategy on
every row of every table, then the inline strategy on every paragraph; the fill
count sums both. -/
def fillDocx (d : DocxDoc) (mappings : List FieldMapping) : DocxDoc × Nat :=
  let lm := buildLabelMapDocx mappings
  let tablesR := d.tables.map (fun t => t.map (fun row => processTableRow lm row))
  let parasR := d.paragraphs.map (fun p => inlineParagraph lm p)
  (⟨tablesR.map (fun t => t.map Prod.fst), parasR.map Prod.fst⟩,
    (tablesR.map (fun t => (t.map Prod.snd).sum)).sum + (parasR.map Prod.snd).sum)

/-! ## Fixed-layout-page writer (`fill_pdf`) -/

/-- A positioned word from `page.extract_words`. -/
structure PdfWord where
  x0 : Int
  x1 : Int
  top : Int
  bottom : Int
  text : String
deriving DecidableEq, Repr

/-- A table cell bounding box `(x0, top, x1, bottom)`. -/
structure CellBox where
  x0 : Int
  top : Int
  x1 : Int
  bottom : Int
deriving DecidableEq, Repr

/-- One pdf page: its dimensions, the detected tables (rows of optional cell
boxes, as `table.rows[..].cells` yields), and its positioned words. -/
structure PdfPage where
  height : Int
  width : Int
  tables : List (List (List (Option CellBox)))
  words : List PdfWord
deriving DecidableEq, Repr

/-- A recorded overlay fill position (one element of `field_positions`). -/
structure FieldPos where
  page : Nat
  x : Int
  y : Int
  value : String
  fontSize : Int
  pageHeight : Int
  pageWidth : Int
deriving DecidableEq, Repr

/-- The sort key of line 433: `(w["top"], w["x0"])`, lexicographically. -/
def wordLE (a b : PdfWord) : Bool :=
  decide (a.top < b.top) || (decide (a.top = b.top) && decide (a.x0 ≤ b.x0))

/-- Stable ascending insertion: the new element goes after every element that
is `≤` it, which reproduces Python's stable `sorted`. -/
def stableInsert {α : Type} (le : α → α → Bool) (a : α) : List α → List α
  | [] => [a]
  | b :: t => if le b a then b :: stableInsert le a t else a :: b :: t

/-- Stable sort (the result of Python `sorted(l, key=...)`). -/
def stableSort {α : Type} (le : α → α → Bool) (l : List α) : List α :=
  l.foldl (fun acc a => stableInsert le a acc) []

/-- Lines 430–434: the text of a cell is the join of the words whose box lies
inside the cell box with a 2-unit tolerance, sorted by `(top, x0)`, then
stripped. -/
def cellText (words : List PdfWord) (bbox : CellBox) : String :=
  let cw := words.filter (fun w =>
    decide (w.x0 ≥ bbox.x0 - 2) && decide (w.x1 ≤ bbox.x1 + 2) &&
    decide (w.top ≥ bbox.top - 2) && decide (w.bottom ≤ bbox.bottom + 2))
  pyStrip (String.intercalate " " ((stableSort wordLE cw).map PdfWord.text))

/-- Lines 423–434: per row, the `(text, bbox)` pairs; a `None` cell box yields
`("", None)`. -/
def rowCellTexts (words : List PdfWord) (cells : List (Option CellBox)) :
    List (String × Option CellBox) :=
  cells.map (fun ob =>
    match ob with
    | none => ("", none)
    | some bbox => (cellText words bbox, some bbox))

/-- One iteration of `_fill_pdf_overlay` lines 398–404: same normalisation as
docx for the label, but the parenthetical-free alias is additionally
colon-stripped (line 403). -/
def labelMapPdfStep (lm : List (String × String)) (m : FieldMapping) : List (String × String) :=
  let label := normDocx (m.form_label.getD "")
  match m.value with
  | some v =>
    if label ≠ "" && v ≠ "" && v ≠ "null" then
      let lm1 := upsert lm label v
      let clean := rstripColon (pyStrip (subParens label))
      if clean ≠ "" && clean ≠ label then upsert lm1 clean v else lm1
    else lm
  | none => lm

/-- `_fill_pdf_overlay` lines 397–404: the label map of the overlay writer. -/
def buildLabelMapPdf (mappings : List FieldMapping) : List (String × String) :=
  mappings.foldl labelMapPdfStep []

/-- Lines 444–448: a cell text matches a label exactly (raw or cleaned) or
contains the label, the containment fallback guarded by `len(label) > 3`. -/
def pdfCellMatches (label textLower textClean : String) : Bool :=
  textLower = label || textClean = label ||
    (strContains textLower label && decide (label.length > 3))

/-- Lines 437–474, the cell loop of one row: walk the `(text, bbox)` pairs;
on a label match, scan the remaining cells of the row for the first one with a
box that is empty-ish (shorter than 3 characters) or identical to the label
cell, record a fill position at its top-left (inset by (4, 3)) unless it is
within 5 units of an already recorded position, and move on to the next cell.
`ps` is the global `field_positions` accumulator. -/
def pdfRowAux (lm : List (String × String)) (pageIdx : Nat) (ph pw : Int) :
    List (String × Option CellBox) → List FieldPos → List FieldPos
  | [], ps => ps
  | (text, obbox) :: rest, ps =>
    if text = "" || obbox.isNone then pdfRowAux lm pageIdx ph pw rest ps
    else
      let tl := pyStrip (rstripColon (pyLower text))
      let tc := pyStrip (subParens tl)
      match lm.find? (fun p => pdfCellMatches p.1 tl tc) with
      | none => pdfRowAux lm pageIdx ph pw rest ps
      | some lv =>
        let ps2 :=
          match rest.find? (fun q => q.2.isSome && (decide (q.1.length < 3) || q.1 = text)) with
          | some (_, some nb) =>
            let fx := nb.x0 + 4
            let fy := nb.top + 3
            if ps.any (fun fp => decide ((fp.y - fy).natAbs < 5) && decide ((fp.x - fx).natAbs < 5))
            then ps
            else ps ++ [⟨pageIdx, fx, fy, lv.2, 8, ph, pw⟩]
          | _ => ps
        pdfRowAux lm pageIdx ph pw rest ps2

/-- Lines 410–474: accumulate fill positions over every page, table and row
(the page index threads through for the overlay). -/
def findFieldPositions (pages : List PdfPage) (lm : List (String × String)) : List FieldPos :=
  (pages.foldl (fun (acc : List FieldPos × Nat) page =>
    (page.tables.foldl (fun ps table =>
      table.foldl (fun ps row =>
        pdfRowAux lm acc.2 page.height page.width (rowCellTexts page.words row) ps) ps) acc.1,
      acc.2 + 1)) ([], 0)).1

/-- One line of the fill guide (lines 483–489). -/
def guideLine (m : FieldMapping) : String :=
  let lbl := m.form_label.getD "Unknown"
  let val := m.value.getD ""
  if val ≠ "" && val ≠ "null" then "  " ++ lbl ++ ": " ++ val
  else "  " ++ lbl ++ ": [NOT FOUND]"

/-- The guide branch counts the mappings whose `m.get("value", "")` is truthy
and not `"null"`. -/
def guideUsable (m : FieldMapping) : Bool :=
  let val := m.value.getD ""
  val ≠ "" && val ≠ "null"

/-- Lines 480–491: the full fill-guide artifact, one line per mapping after the
header. -/
def guideAll (mappings : List FieldMapping) : List String :=
  ["VENDOR FORM FILL GUIDE", String.mk (List.replicate 50 '='), ""] ++ mappings.map guideLine

/-- One iteration of `_fill_pdf_fields` lines 365–369: label map entries use
`strip().lower()` only, no colon strip. -/
def labelMapPdfFieldsStep (lm : List (String × String)) (m : FieldMapping) :
    List (String × String) :=
  let label := pyLower (pyStrip (m.form_label.getD ""))
  match m.value with
  | some v =>
    if label ≠ "" && v ≠ "" && v ≠ "null" then upsert lm label v else lm
  | none => lm

/-- `_fill_pdf_fields` lines 364–369: the interactive-field label map. -/
def buildLabelMapPdfFields (mappings : List FieldMapping) : List (String × String) :=
  mappings.foldl labelMapPdfFieldsStep []

/-- `_fill_pdf_fields` lines 371–379: for each interactive field, write the
value of the first label that contains or is contained in the lowered field
name. -/
def fillPdfFields (fields : List String) (mappings : List FieldMapping) :
    List (String × String) × Nat :=
  let lm := buildLabelMapPdfFields mappings
  fields.foldl (fun (acc : List (String × String) × Nat) fieldName =>
    let fl := pyLower (pyStrip fieldName)
    match lm.find? (fun p => strContains fl p.1 || strContains p.1 fl) with
    | some p => (acc.1 ++ [(fieldName, p.2)], acc.2 + 1)
    | none => acc) ([], 0)

/-- What the pdf writer produces: an overlay merged onto the pages, an
unmodified copy plus the fill guide, or interactive form-field updates. -/
inductive PdfOutput where
  | overlaid (positions : List FieldPos)
  | originalCopy (guide : List String)
  | interactive (updates : List (String × String))
deriving DecidableEq, Repr

/-- `_fill_pdf_overlay` (lines 386–528): find the fill positions; with none,
copy the input unchanged and emit the guide; otherwise render the overlay at
the recorded positions. -/
def fillPdfOverlay (pages : List PdfPage) (mappings : List FieldMapping) : PdfOutput × Nat :=
  let lm := buildLabelMapPdf mappings
  let fps := findFieldPositions pages lm
  if fps.isEmpty then
    (.originalCopy (guideAll mappings), (mappings.filter guideUsable).length)
  else (.overlaid fps, fps.length)

/-- `fill_pdf` (lines 342–354): interactive fields take priority; the overlay
(and its guide fallback) runs only when the document has none. -/
def fillPdf (fields : List String) (pages : List PdfPage) (mappings : List FieldMapping) :
    PdfOutput × Nat :=
  if fields.isEmpty then fillPdfOverlay pages mappings
  else
    let r := fillPdfFields fields mappings
    (.interactive r.1, r.2)

/-! ## Mapping-service client (`map_fields`) -/

/-- A parsed JSON value (the shape `json.loads` can return). -/
inductive Json where
  | null
  | jbool (b : Bool)
  | jnum (n : Int)
  | jstr (s : String)
  | jarr (elems : List Json)
  | jobj (fields : List (String × Json))

def Json.isArray : Json → Bool
  | .jarr _ => true
  | _ => false

/-- The backquote character, avoiding the literal in code. -/
def fenceChar : Char := Char.ofNat 96

/-- Python `raw.split("\n", 1)[1]`: the part after the first newline; `none`
models the `IndexError` when there is no newline at all. -/
def splitFirstNewline : List Char → Option (List Char)
  | [] => none
  | c :: rest => if c = '\n' then some rest else splitFirstNewline rest

/-- Python `raw.rsplit("```", 1)[0]`: the prefix before the last occurrence of
the fence, `none` when the fence does not occur (the caller then keeps the
whole string). -/
def rsplitFenceAux : List Char → Option (List Char)
  | [] => none
  | c :: rest =>
    match rsplitFenceAux rest with
    | some p => some (c :: p)
    | none =>
      if c = fenceChar then
        match rest with
        | c2 :: c3 :: _ => if c2 = fenceChar && c3 = fenceChar then some [] else none
        | _ => none
      else none

/-- `map_fields` lines 190–192: strip the response, and when it starts with a
code fence drop the first line and everything from the last fence on.  `none`
is the `IndexError` of a fence with no newline. -/
def stripCodeFence (raw : String) : Option String :=
  let r := pyStripList raw.data
  if [fenceChar, fenceChar, fenceChar].isPrefixOf r then
    match splitFirstNewline r with
    | none => none
    | some rest =>
      some (String.mk (match rsplitFenceAux rest with | some p => p | none => rest))
  else some (String.mk r)

/-- `map_fields` line 193: `return json.loads(raw)`.  The external parser is a
parameter; the source returns whatever it parses — there is no check that the
top level is an array. -/
def mapFieldsResult (raw : String) (parse : String → Option Json) : Except String Json :=
  match stripCodeFence raw with
  | none => .error "IndexError"
  | some s =>
    match parse s with
    | none => .error "json.decoder.JSONDecodeError"
    | some j => .ok j

/-- A parser stub standing for a service response whose top level is a JSON
object. -/
def objParse : String → Option Json := fun _ => some (Json.jobj [])

/-! ## Reader dispatch (`read_form`) -/

inductive ReadFormat where
  | xlsx
  | docx
  | pdf
deriving DecidableEq, Repr

/-- `read_form` lines 39–48: lower-case the suffix and dispatch; `.doc` is
routed to the docx reader; anything else raises before the document is read. -/
def readFormDispatch (suffix : String) : Except String ReadFormat :=
  let ext := pyLower suffix
  if ext = ".xlsx" then .ok .xlsx
  else if ext = ".docx" || ext = ".doc" then .ok .docx
  else if ext = ".pdf" then .ok .pdf
  else .error ("Unsupported file format: " ++ ext ++ ". Supported: xlsx, docx, pdf")

/-! ## Generic fold lemmas -/

/-- Entries on which a fold step is the identity can be filtered away without
changing the fold. -/
theorem foldl_filter_skip {α β : Type} (step : β → α → β) (q : α → Bool)
    (h : ∀ acc a, q a = false → step acc a = acc) :
    ∀ (l : List α) (acc : β), (l.filter q).foldl step acc = l.foldl step acc := by
  intro l
  induction l with
  | nil => intro _; rfl
  | cons a t ih =>
    intro acc
    cases hq : q a with
    | true => simp [List.filter_cons, hq, ih]
    | false => simp [List.filter_cons, hq, ih, h acc a hq]

/-- A map that the fold step cannot observe does not change the fold. -/
theorem foldl_map_invar {α β : Type} (step : β → α → β) (f : α → α)
    (h : ∀ acc a, step acc (f a) = step acc a) :
    ∀ (l : List α) (acc : β), (l.map f).foldl step acc = l.foldl step acc := by
  intro l
  induction l with
  | nil => intro _; rfl
  | cons a t ih => intro acc; simp [h, ih]

/-! ## The builders skip unusable values and never read confidence -/

theorem cellsToFillStep_skip (acc : List ((Nat × Nat) × String)) (m : FieldMapping)
    (h : hasUsableValue m = false) : cellsToFillStep acc m = acc := by
  unfold cellsToFillStep
  cases hv : m.value with
  | none => cases m.form_cell <;> rfl
  | some v =>
    unfold hasUsableValue at h
    rw [hv] at h
    simp at h
    subst h
    cases m.form_cell <;> simp

theorem labelMapDocxStep_skip (lm : List (String × String)) (m : FieldMapping)
    (h : hasUsableValue m = false) : labelMapDocxStep lm m = lm := by
  unfold labelMapDocxStep
  cases hv : m.value with
  | none => rfl
  | some v =>
    unfold hasUsableValue at h
    rw [hv] at h
    simp at h
    subst h
    simp

theorem labelMapPdfStep_skip (lm : List (String × String)) (m : FieldMapping)
    (h : hasUsableValue m = false) : labelMapPdfStep lm m = lm := by
  unfold labelMapPdfStep
  cases hv : m.value with
  | none => rfl
  | some v =>
    unfold hasUsableValue at h
    rw [hv] at h
    simp at h
    subst h
    simp

theorem labelMapPdfFieldsStep_skip (lm : List (String × String)) (m : FieldMapping)
    (h : hasUsableValue m = false) : labelMapPdfFieldsStep lm m = lm := by
  unfold labelMapPdfFieldsStep
  cases hv : m.value with
  | none => rfl
  | some v =>
    unfold hasUsableValue at h
    rw [hv] at h
    simp at h
    subst h
    simp

theorem cellsToFillStep_conf (acc : List ((Nat × Nat) × String)) (m : FieldMapping)
    (conf : Option String) : cellsToFillStep acc (setConfidence conf m) = cellsToFillStep acc m := by
  cases m; rfl

theorem labelMapDocxStep_conf (lm : List (String × String)) (m : FieldMapping)
    (conf : Option String) : labelMapDocxStep lm (setConfidence conf m) = labelMapDocxStep lm m := by
  cases m; rfl

theorem labelMapPdfStep_conf (lm : List (String × String)) (m : FieldMapping)
    (conf : Option String) : labelMapPdfStep lm (setConfidence conf m) = labelMapPdfStep lm m := by
  cases m; rfl

theorem labelMapPdfFieldsStep_conf (lm : List (String × String)) (m : FieldMapping)
    (conf : Option String) :
    labelMapPdfFieldsStep lm (setConfidence conf m) = labelMapPdfFieldsStep lm m := by
  cases m; rfl

theorem guideLine_conf (conf : Option String) (m : FieldMapping) :
    guideLine (setConfidence conf m) = guideLine m := by
  cases m; rfl

theorem guideUsable_conf (conf : Option String) (m : FieldMapping) :
    guideUsable (setConfidence conf m) = guideUsable m := by
  cases m; rfl

theorem buildCellsToFill_filter (mappings : List FieldMapping) :
    buildCellsToFill (mappings.filter hasUsableValue) = buildCellsToFill mappings :=
  foldl_filter_skip _ _ cellsToFillStep_skip mappings []

theorem buildLabelMapDocx_filter (mappings : List FieldMapping) :
    buildLabelMapDocx (mappings.filter hasUsableValue) = buildLabelMapDocx mappings :=
  foldl_filter_skip _ _ labelMapDocxStep_skip mappings []

theorem buildLabelMapPdf_filter (mappings : List FieldMapping) :
    buildLabelMapPdf (mappings.filter hasUsableValue) = buildLabelMapPdf mappings :=
  foldl_filter_skip _ _ labelMapPdfStep_skip mappings []

theorem buildLabelMapPdfFields_filter (mappings : List FieldMapping) :
    buildLabelMapPdfFields (mappings.filter hasUsableValue) = buildLabelMapPdfFields mappings :=
  foldl_filter_skip _ _ labelMapPdfFieldsStep_skip mappings []

theorem buildCellsToFill_conf (mappings : List FieldMapping) (conf : Option String) :
    buildCellsToFill (mappings.map (setConfidence conf)) = buildCellsToFill mappings :=
  foldl_map_invar _ _ (fun acc m => cellsToFillStep_conf acc m conf) mappings []

theorem buildLabelMapDocx_conf (mappings : List FieldMapping) (conf : Option String) :
    buildLabelMapDocx (mappings.map (setConfidence conf)) = buildLabelMapDocx mappings :=
  foldl_map_invar _ _ (fun lm m => labelMapDocxStep_conf lm m conf) mappings []

theorem buildLabelMapPdf_conf (mappings : List FieldMapping) (conf : Option String) :
    buildLabelMapPdf (mappings.map (setConfidence conf)) = buildLabelMapPdf mappings :=
  foldl_map_invar _ _ (fun lm m => labelMapPdfStep_conf lm m conf) mappings []

theorem buildLabelMapPdfFields_conf (mappings : List FieldMapping) (conf : Option String) :
    buildLabelMapPdfFields (mappings.map (setConfidence conf)) = buildLabelMapPdfFields mappings :=
  foldl_map_invar _ _ (fun lm m => labelMapPdfFieldsStep_conf lm m conf) mappings []

theorem guideAll_conf (mappings : List FieldMapping) (conf : Option String) :
    guideAll (mappings.map (setConfidence conf)) = guideAll mappings := by
  unfold guideAll
  have h : (mappings.map (setConfidence conf)).map guideLine = mappings.map guideLine := by
    rw [List.map_map]
    exact List.map_congr_left (fun m _ => guideLine_conf conf m)
  rw [h]

theorem guideCount_conf (mappings : List FieldMapping) (conf : Option String) :
    ((mappings.map (setConfidence conf)).filter guideUsable).length
      = (mappings.filter guideUsable).length := by
  have h : mappings.filter (guideUsable ∘ setConfidence conf) = mappings.filter guideUsable :=
    List.filter_congr (fun m _ => guideUsable_conf conf m)
  rw [List.filter_map, List.length_map, h]

/-! ## Claims C1 and C2: what gates a write -/

/-- C2: for every FieldMapping sequence and every writer, an entry whose value
is absent or the sentinel `"null"` is never written: the spreadsheet writer,
the word-processor writer, the interactive form-field writer and the overlay
position finder all produce identical results when those entries are removed
from the sequence. -/
theorem unusable_entries_never_written (wb : Workbook) (d : DocxDoc) (fields : List String)
    (pages : List PdfPage) (mappings : List FieldMapping) :
    fillXlsx wb (mappings.filter hasUsableValue) = fillXlsx wb mappings
    ∧ fillDocx d (mappings.filter hasUsableValue) = fillDocx d mappings
    ∧ fillPdfFields fields (mappings.filter hasUsableValue) = fillPdfFields fields mappings
    ∧ findFieldPositions pages (buildLabelMapPdf (mappings.filter hasUsableValue))
        = findFieldPositions pages (buildLabelMapPdf mappings) := by
  refine ⟨?_, ?_, ?_, ?_⟩
  · unfold fillXlsx
    rw [buildCellsToFill_filter]
  · unfold fillDocx
    rw [buildLabelMapDocx_filter]
  · unfold fillPdfFields
    rw [buildLabelMapPdfFields_filter]
  · rw [buildLabelMapPdf_filter]

/-- C1 (amended): no writer ever consults the confidence field — every
writer's complete output is invariant under replacing every entry's confidence
by anything whatsoever; only an absent/empty/`"null"` value withholds an entry
(so confidence `"none"` alone does not prevent a write). -/
theorem writers_ignore_confidence (wb : Workbook) (d : DocxDoc) (fields : List String)
    (pages : List PdfPage) (mappings : List FieldMapping) (conf : Option String) :
    fillXlsx wb (mappings.map (setConfidence conf)) = fillXlsx wb mappings
    ∧ fillDocx d (mappings.map (setConfidence conf)) = fillDocx d mappings
    ∧ fillPdf fields pages (mappings.map (setConfidence conf)) = fillPdf fields pages mappings := by
  refine ⟨?_, ?_, ?_⟩
  · unfold fillXlsx
    rw [buildCellsToFill_conf]
  · unfold fillDocx
    rw [buildLabelMapDocx_conf]
  · unfold fillPdf fillPdfOverlay fillPdfFields
    rw [buildLabelMapPdf_conf, guideAll_conf, guideCount_conf, buildLabelMapPdfFields_conf]

/-- C1 counterexample: an entry with confidence `"none"` but a usable value is
written by `fill_xlsx` — the output at cell (1,1) differs from the input
there, so confidence `"none"` alone does not prevent a write. -/
theorem confidence_none_still_written_cex :
    (FieldMapping.mk (some "Company Name") (some (1, 1)) none (some "Acme Co")
        (some "none")).confidence = some "none"
    ∧ (Workbook.mk [⟨[], []⟩] 0).active.cellValue (1, 1) = none
    ∧ (fillXlsx (Workbook.mk [⟨[], []⟩] 0)
        [FieldMapping.mk (some "Company Name") (some (1, 1)) none (some "Acme Co")
          (some "none")]).1.active.cellValue (1, 1) = some "Acme Co" := by
  refine ⟨rfl, rfl, ?_⟩
  decide

/-! ## Claim C4: what the mapping client rejects -/

/-- C4 (amended): after fence stripping, `map_fields` fails exactly when the
stripped text is not parseable JSON; whatever `json.loads` returns — array or
not — is returned unvalidated. -/
theorem mapFields_error_iff_unparseable (raw s : String) (parse : String → Option Json)
    (h : stripCodeFence raw = some s) :
    (∀ j, parse s = some j → mapFieldsResult raw parse = .ok j)
    ∧ (parse s = none → mapFieldsResult raw parse = .error "json.decoder.JSONDecodeError") := by
  unfold mapFieldsResult
  rw [h]
  constructor
  · intro j hj
    dsimp only
    rw [hj]
  · intro hn
    dsimp only
    rw [hn]

/-- Witness for C4's amended theorem at a concrete response. -/
theorem mapFields_error_iff_unparseable_witness :
    (∀ j, objParse "x" = some j → mapFieldsResult "x" objParse = .ok j)
    ∧ (objParse "x" = none →
        mapFieldsResult "x" objParse = .error "json.decoder.JSONDecodeError") :=
  mapFields_error_iff_unparseable "x" "x" objParse (by decide)

/-- C4 counterexample: a response whose top level is a JSON object is NOT
rejected — `map_fields` returns it as-is, though it is not an array. -/
theorem mapFields_accepts_object_cex :
    mapFieldsResult "x" objParse = .ok (Json.jobj []) ∧ (Json.jobj []).isArray = false :=
  ⟨rfl, rfl⟩

/-! ## Claim C5: reader dispatch on the file extension -/

/-- C5 (amended): `read_form` accepts exactly the lower-cased suffixes
`.xlsx`, `.docx`, `.doc` and `.pdf` — one more than the three supported
formats — and rejects everything else before touching the document. -/
theorem readForm_ok_iff_known_ext (suffix : String) :
    (readFormDispatch suffix).isOk = true ↔
      pyLower suffix ∈ ([".xlsx", ".docx", ".doc", ".pdf"] : List String) := by
  unfold readFormDispatch
  by_cases h1 : pyLower suffix = ".xlsx" <;>
    by_cases h2 : pyLower suffix = ".docx" <;>
      by_cases h3 : pyLower suffix = ".doc" <;>
        by_cases h4 : pyLower suffix = ".pdf" <;>
          simp [h1, h2, h3, h4, Except.isOk, Except.toBool]

/-- C5 counterexample: the extension `.doc` is outside the three supported
formats yet `read_form` does not raise — it routes `.doc` to the docx
reader. -/
theorem readForm_accepts_doc_cex :
    readFormDispatch ".doc" = .ok ReadFormat.docx
    ∧ (".doc" : String) ∉ ([".xlsx", ".docx", ".pdf"] : List String) := by
  refine ⟨rfl, ?_⟩
  decide

/-! ## Claim C10: only the active sheet is written -/

/-- C10: `fill_xlsx` writes only through `wb.active`; every other worksheet of
the workbook is unchanged in the output, whatever the mappings say. -/
theorem fillXlsx_only_active_sheet (wb : Workbook) (mappings : List FieldMapping) (i : Nat)
    (h : i ≠ wb.activeIdx) :
    (fillXlsx wb mappings).1.sheets[i]? = wb.sheets[i]? := by
  unfold fillXlsx
  exact List.getElem?_set_ne (Ne.symm h)

/-- Witness for C10 on a two-sheet workbook with the first sheet active. -/
theorem fillXlsx_only_active_sheet_witness :
    (fillXlsx (Workbook.mk [⟨[], []⟩, ⟨[((1, 1), "keep")], []⟩] 0)
        [FieldMapping.mk none (some (1, 1)) none (some "X") (some "high")]).1.sheets[1]?
      = (Workbook.mk [⟨[], []⟩, ⟨[((1, 1), "keep")], []⟩] 0).sheets[1]? :=
  fillXlsx_only_active_sheet (Workbook.mk [⟨[], []⟩, ⟨[((1, 1), "keep")], []⟩] 0)
    [FieldMapping.mk none (some (1, 1)) none (some "X") (some "high")] 1 (by decide)

/-! ## Claim C7: coordinates absent from the sheet -/

theorem upsert_keyPresent_self {κ ν : Type} [DecidableEq κ] (al : List (κ × ν)) (k : κ) (v : ν) :
    (upsert al k v).any (fun p => p.1 = k) = true := by
  unfold upsert
  by_cases h : al.any (fun p => p.1 = k)
  · rw [if_pos h]
    rcases List.any_eq_true.mp h with ⟨p, hp, hpk⟩
    simp only [decide_eq_true_eq] at hpk
    apply List.any_eq_true.mpr
    exact ⟨if p.1 = k then (k, v) else p, List.mem_map_of_mem _ hp, by simp [hpk]⟩
  · rw [if_neg h]
    apply List.any_eq_true.mpr
    exact ⟨(k, v), by simp, by simp⟩

theorem upsert_keyPresent_mono {κ ν : Type} [DecidableEq κ] (al : List (κ × ν)) (k c : κ) (v : ν)
    (h : al.any (fun p => p.1 = c) = true) : (upsert al k v).any (fun p => p.1 = c) = true := by
  unfold upsert
  rcases List.any_eq_true.mp h with ⟨p, hp, hpc⟩
  simp only [decide_eq_true_eq] at hpc
  by_cases hk : al.any (fun p => p.1 = k)
  · rw [if_pos hk]
    apply List.any_eq_true.mpr
    refine ⟨if p.1 = k then (k, v) else p, List.mem_map_of_mem _ hp, ?_⟩
    by_cases hpk : p.1 = k
    · have hkc : k = c := hpk ▸ hpc
      simp [hpk, hkc]
    · rw [if_neg hpk]
      simp [hpc]
  · rw [if_neg hk]
    apply List.any_eq_true.mpr
    exact ⟨p, List.mem_append_left _ hp, by simp [hpc]⟩

/-- After folding upserts over a worklist, every worklist key is present
(openpyxl `ws[coord] = v` creates the cell when it does not exist). -/
theorem foldl_upsert_keyPresent {κ ν : Type} [DecidableEq κ] :
    ∀ (l acc : List (κ × ν)) (c : κ),
      (acc.any (fun p => p.1 = c) = true ∨ ∃ v, (c, v) ∈ l) →
      ((l.foldl (fun cs p => upsert cs p.1 p.2) acc).any (fun p => p.1 = c)) = true := by
  intro l
  induction l with
  | nil =>
    intro acc c h
    rcases h with h | ⟨v, hv⟩
    · exact h
    · cases hv
  | cons p t ih =>
    intro acc c h
    rw [List.foldl_cons]
    apply ih
    rcases h with h | ⟨v, hv⟩
    · exact Or.inl (upsert_keyPresent_mono acc p.1 c p.2 h)
    · rcases List.mem_cons.mp hv with heq | ht
      · left
        rw [← heq]
        exact upsert_keyPresent_self acc c v
      · exact Or.inr ⟨v, ht⟩

theorem keyPresent_lookup {κ ν : Type} [DecidableEq κ] (al : List (κ × ν)) (c : κ)
    (h : al.any (fun p => p.1 = c) = true) : (lookupKey al c).isSome = true := by
  unfold lookupKey
  rcases List.any_eq_true.mp h with ⟨p, hp, hpc⟩
  cases hf : al.find? (fun p => p.1 = c) with
  | some q => rfl
  | none => exact absurd hpc (List.find?_eq_none.mp hf p hp)

/-- C7 (amended): an entry with a usable value whose (valid) coordinate does
not address an existing cell is NOT dropped: `ws[cell] = value` creates the
cell, the value lands there, and the entry counts toward the fill total, which
is always the full size of the `cells_to_fill` dict. -/
theorem fillXlsx_creates_missing_cells (wb : Workbook) (mappings : List FieldMapping)
    (c : Nat × Nat) (v : String) (ha : wb.activeIdx < wb.sheets.length)
    (hm : (c, v) ∈ buildCellsToFill mappings) :
    (fillXlsx wb mappings).2 = (buildCellsToFill mappings).length
    ∧ ((fillXlsx wb mappings).1.active.cellValue c).isSome = true := by
  refine ⟨rfl, ?_⟩
  unfold fillXlsx Workbook.active Sheet.cellValue
  dsimp only
  rw [List.getD_eq_getElem?_getD, List.getElem?_set_self ha]
  dsimp only [Option.getD]
  apply keyPresent_lookup
  exact foldl_upsert_keyPresent _ _ _ (Or.inr ⟨v, hm⟩)

/-- Witness for C7's amended theorem: a coordinate outside the populated
sheet. -/
theorem fillXlsx_creates_missing_cells_witness :
    (fillXlsx (Workbook.mk [⟨[], []⟩] 0)
        [FieldMapping.mk none (some (9, 26)) none (some "X") (some "high")]).2
      = (buildCellsToFill
          [FieldMapping.mk none (some (9, 26)) none (some "X") (some "high")]).length
    ∧ ((fillXlsx (Workbook.mk [⟨[], []⟩] 0)
        [FieldMapping.mk none (some (9, 26)) none (some "X") (some "high")]).1.active.cellValue
          (9, 26)).isSome = true :=
  fillXlsx_creates_missing_cells (Workbook.mk [⟨[], []⟩] 0)
    [FieldMapping.mk none (some (9, 26)) none (some "X") (some "high")] (9, 26) "X"
    (by decide) (by decide)

/-- C7 counterexample: coordinate (9, 26) addresses no existing cell of the
sheet, yet the entry is written (the cell is created) and counted — it is not
dropped. -/
theorem absent_coordinate_not_dropped_cex :
    ((Workbook.mk [⟨[], []⟩] 0).active.cellValue (9, 26) = none)
    ∧ (fillXlsx (Workbook.mk [⟨[], []⟩] 0)
        [FieldMapping.mk none (some (9, 26)) none (some "X") (some "high")]).2 = 1
    ∧ (fillXlsx (Workbook.mk [⟨[], []⟩] 0)
        [FieldMapping.mk none (some (9, 26)) none (some "X") (some "high")]).1.active.cellValue
          (9, 26) = some "X" := by
  refine ⟨rfl, rfl, ?_⟩
  decide

/-! ## Claim C3: exactly the affected merged ranges are unmerged -/

/-- On a duplicate-free merged-range list (a set, in openpyxl), removing one
range is filtering it out. -/
theorem removeRange_eq_filter {l : List MergedRange} (h : l.Nodup) (mc : MergedRange) :
    removeRange l mc = l.filter (fun x => decide (x ≠ mc)) := by
  induction l with
  | nil => rfl
  | cons x t ih =>
    rw [removeRange, List.filter_cons]
    by_cases hx : x = mc
    · subst hx
      rw [if_pos rfl]
      have hnx : decide (x ≠ x) = false := by simp
      rw [hnx]
      simp only [Bool.false_eq_true, if_false]
      have hx_not : x ∉ t := (List.nodup_cons.mp h).1
      refine (List.filter_eq_self.mpr ?_).symm
      intro a ha
      simp only [decide_eq_true_eq]
      exact fun heq => hx_not (heq ▸ ha)
    · rw [if_neg hx]
      have hd : decide (x ≠ mc) = true := by simp [hx]
      rw [hd]
      simp only [if_true]
      rw [ih (List.nodup_cons.mp h).2]

/-- The snapshot loop of `fill_xlsx` lines 216–223, generalized: folding
conditional removals over a duplicate-free accumulator filters out exactly the
elements of the iterated snapshot that satisfy the condition. -/
theorem foldl_removeRange (p : MergedRange → Bool) :
    ∀ (iter acc : List MergedRange), acc.Nodup →
      iter.foldl (fun cur mc => if p mc then removeRange cur mc else cur) acc
        = acc.filter (fun x => !(p x && decide (x ∈ iter))) := by
  intro iter
  induction iter with
  | nil =>
    intro acc _
    simp
  | cons mc t ih =>
    intro acc hacc
    rw [List.foldl_cons]
    cases hp : p mc with
    | true =>
      simp only [hp, if_true]
      have hacc2 : (removeRange acc mc).Nodup := by
        rw [removeRange_eq_filter hacc]
        exact hacc.filter _
      rw [ih _ hacc2, removeRange_eq_filter hacc, List.filter_filter]
      apply List.filter_congr
      intro x _
      by_cases hx : x = mc
      · subst hx
        simp [hp, List.mem_cons]
      · by_cases hxt : x ∈ t <;> simp [hx, hxt, List.mem_cons]
    | false =>
      simp only [hp, Bool.false_eq_true, if_false]
      rw [ih _ hacc]
      apply List.filter_congr
      intro x _
      by_cases hx : x = mc
      · subst hx
        simp [hp, List.mem_cons]
      · by_cases hxt : x ∈ t <;> simp [hx, hxt, List.mem_cons]

/-- The unmerge loop removes exactly the affected ranges. -/
theorem unmergeLoop_eq_filter (merged : List MergedRange) (targets : List (Nat × Nat))
    (h : merged.Nodup) :
    unmergeLoop merged targets = merged.filter (fun mc => !(affectedBy targets mc)) := by
  unfold unmergeLoop
  rw [foldl_removeRange (affectedBy targets) merged merged h]
  apply List.filter_congr
  intro x hx
  simp [hx]

/-- C3: `fill_xlsx` unmerges exactly those merged cell ranges of the active
sheet that contain a target coordinate (with a usable value) away from the
range's top-left anchor: the merged set after is the merged set before minus
the affected ranges, every other range untouched. -/
theorem fillXlsx_unmerges_exactly_affected (wb : Workbook) (mappings : List FieldMapping)
    (ha : wb.activeIdx < wb.sheets.length) (hn : wb.active.merged.Nodup) :
    (fillXlsx wb mappings).1.active.merged
      = wb.active.merged.filter
          (fun mc => !(affectedBy ((buildCellsToFill mappings).map Prod.fst) mc)) := by
  unfold Workbook.active at *
  unfold fillXlsx
  dsimp only
  rw [List.getD_eq_getElem?_getD, List.getElem?_set_self ha]
  dsimp only [Option.getD]
  exact unmergeLoop_eq_filter _ _ hn

/-- Witness for C3: a workbook with two merged ranges, one containing the
target (1,2) off-anchor (unmerged), the other untouched. -/
theorem fillXlsx_unmerges_exactly_affected_witness :
    (fillXlsx (Workbook.mk [⟨[((1, 1), "Name")], [⟨1, 1, 1, 2⟩, ⟨2, 1, 2, 2⟩]⟩] 0)
        [FieldMapping.mk none (some (1, 2)) none (some "V") (some "high")]).1.active.merged
      = (Workbook.mk [⟨[((1, 1), "Name")], [⟨1, 1, 1, 2⟩, ⟨2, 1, 2, 2⟩]⟩] 0).active.merged.filter
          (fun mc => !(affectedBy ((buildCellsToFill
              [FieldMapping.mk none (some (1, 2)) none (some "V") (some "high")]).map
                Prod.fst) mc)) :=
  fillXlsx_unmerges_exactly_affected
    (Workbook.mk [⟨[((1, 1), "Name")], [⟨1, 1, 1, 2⟩, ⟨2, 1, 2, 2⟩]⟩] 0)
    [FieldMapping.mk none (some (1, 2)) none (some "V") (some "high")] (by decide) (by decide)

/-! ## Claim C9: the fill-guide fallback -/

/-- C9: on a document with zero interactive form fields for which the
geometric overlay records zero fill positions, `fill_pdf` always produces the
unmodified copy of the input together with the fill-guide artifact, whose
lines include one entry for every label — with its value, or with the
`[NOT FOUND]` marker. -/
theorem pdf_guide_fallback (pages : List PdfPage) (mappings : List FieldMapping)
    (h : findFieldPositions pages (buildLabelMapPdf mappings) = []) :
    fillPdf [] pages mappings
      = (.originalCopy (guideAll mappings), (mappings.filter guideUsable).length)
    ∧ ∀ m ∈ mappings, guideLine m ∈ guideAll mappings := by
  constructor
  · unfold fillPdf fillPdfOverlay
    simp [h]
  · intro m hm
    unfold guideAll
    rw [List.mem_append]
    exact Or.inr (List.mem_map_of_mem _ hm)

/-- Witness for C9: a document with no pages (hence no detected geometry) and
one mapped label. -/
theorem pdf_guide_fallback_witness :
    fillPdf [] []
        [FieldMapping.mk (some "Company Name") none none (some "Acme Co") (some "high")]
      = (.originalCopy (guideAll
          [FieldMapping.mk (some "Company Name") none none (some "Acme Co") (some "high")]),
        ([FieldMapping.mk (some "Company Name") none none (some "Acme Co")
            (some "high")].filter guideUsable).length)
    ∧ ∀ m ∈ [FieldMapping.mk (some "Company Name") none none (some "Acme Co") (some "high")],
        guideLine m ∈ guideAll
          [FieldMapping.mk (some "Company Name") none none (some "Acme Co") (some "high")] :=
  pdf_guide_fallback []
    [FieldMapping.mk (some "Company Name") none none (some "Acme Co") (some "high")] rfl

/-! ## Claim C8: the inline paragraph strategy -/

theorem stripLabelCI_append (l r : List Char) : stripLabelCI l (l ++ r) = some r := by
  induction l with
  | nil => rfl
  | cons a as ih => simp [stripLabelCI, ih]

theorem inlineTryAt_label_colon (label blanks : List Char) (hb : blankTail blanks = true) :
    inlineTryAt label (label ++ ':' :: blanks) = true := by
  unfold inlineTryAt
  rw [stripLabelCI_append]
  unfold afterLabelMatch
  have hws : isPyWS ':' = false := rfl
  simp [List.dropWhile_cons, hws, hb]

theorem inlineSearch_append (label pre rest : List Char) (h : inlineTryAt label rest = true) :
    inlineSearch label (pre ++ rest) = true := by
  induction pre with
  | nil =>
    rw [List.nil_append]
    cases rest with
    | nil => exact h
    | cons c t =>
      unfold inlineSearch
      rw [h]
      simp
  | cons c p ih =>
    show inlineSearch label (c :: (p ++ rest)) = true
    unfold inlineSearch
    rw [ih]
    simp

theorem inlineSubAux_through (value xs blanks : List Char) (hx : ':' ∉ xs)
    (hb : blankTail blanks = true) :
    inlineSubAux value (xs ++ ':' :: blanks)
      = xs ++ ':' :: (blanks.takeWhile isPyWS ++ value) := by
  induction xs with
  | nil =>
    show inlineSubAux value (':' :: blanks) = _
    unfold inlineSubAux
    simp [hb]
  | cons c t ih =>
    have hc : ¬(c = ':') := fun h => hx (by rw [h]; exact List.mem_cons_self ':' t)
    show inlineSubAux value (c :: (t ++ ':' :: blanks)) = c :: (t ++ ':' :: _)
    unfold inlineSubAux
    simp only [hc, decide_eq_true_eq, decide_eq_false_iff_not, Bool.false_and, decide_False,
      Bool.false_eq_true, if_false]
    rw [ih (fun hm => hx (List.mem_cons_of_mem c hm))]

/-- C8 (amended): the inline strategy fills the trailing pattern
"label, colon, blank run at end of line" — the colon is mandatory, the blank
run optional — replacing the blank run by the value and preserving everything
up to the colon (and the whitespace just after it). -/
theorem docx_inline_requires_colon (label value pre blanks : String)
    (hpre : ':' ∉ pre.data) (hlab : ':' ∉ label.data) (hb : blankTail blanks.data = true) :
    inlineStep label value (pre ++ label ++ ":" ++ blanks)
      = (pre ++ label ++ ":" ++ String.mk (blanks.data.takeWhile isPyWS) ++ value, true) := by
  have hcolon : (":" : String).data = [':'] := rfl
  have hdata : (pre ++ label ++ ":" ++ blanks).data
      = (pre.data ++ label.data) ++ ':' :: blanks.data := by
    simp [String.data_append, hcolon]
  unfold inlineStep
  rw [hdata]
  have hsearch : inlineSearch label.data ((pre.data ++ label.data) ++ ':' :: blanks.data)
      = true := by
    rw [List.append_assoc]
    exact inlineSearch_append _ _ _ (inlineTryAt_label_colon label.data blanks.data hb)
  rw [hsearch]
  simp only [if_true]
  have hsub := inlineSubAux_through value.data (pre.data ++ label.data) blanks.data
    (fun hm => (List.mem_append.mp hm).elim (fun h => hpre h) (fun h => hlab h)) hb
  rw [hsub]
  refine Prod.ext ?_ rfl
  apply String.ext
  simp [String.data_append, hcolon]

/-- Witness for C8's amended theorem on a concrete blank-run paragraph. -/
theorem docx_inline_requires_colon_witness :
    inlineStep "company name" "Acme Co" ("" ++ "company name" ++ ":" ++ " ___")
      = ("" ++ "company name" ++ ":" ++ String.mk (" ___".data.takeWhile isPyWS)
          ++ "Acme Co", true) :=
  docx_inline_requires_colon "company name" "Acme Co" "" " ___" (by decide) (by decide)
    (by decide)

/-- C8 counterexample: a paragraph ending in the label followed by a blank run
but WITHOUT a colon is not matched and not filled — the colon in the pattern
`label\s*:\s*[_\s]*$` is mandatory, not optional. -/
theorem inline_no_colon_not_filled_cex :
    inlineStep "company name" "Acme Co" "Company Name ____" = ("Company Name ____", false)
    ∧ inlineSearch "company name".data "Company Name ____".data = false := by
  refine ⟨?_, ?_⟩ <;> decide

/-! ## Claim C6: the table strategy writes into the next cell -/

/-- The row loop stops at an out-of-range index. -/
theorem rowLoopAux_stop (lm : List (String × String)) (fuel : Nat) (cells : List DCell)
    (i count : Nat) (h : cells[i]? = none) :
    rowLoopAux lm fuel cells i count = (cells, count) := by
  cases fuel with
  | zero => rfl
  | succ f =>
    rw [rowLoopAux, h]

/-- When the cell after `i` does not exist, the step at `i` can neither write
nor change the count, whatever the cell text matches. -/
theorem rowLoopAux_no_next (lm : List (String × String)) (fuel : Nat) (cells : List DCell)
    (i count : Nat) (hnext : cells[i + 1]? = none) :
    rowLoopAux lm (fuel + 1) cells i count = (cells, count) := by
  rw [rowLoopAux]
  cases hc : cells[i]? with
  | none => rfl
  | some cell =>
    dsimp only
    by_cases hct : normDocx cell.text = ""
    · rw [if_pos hct]
      exact rowLoopAux_stop lm fuel cells (i + 1) count hnext
    · rw [if_neg hct]
      cases hm : docxMatch lm (normDocx cell.text)
          (rstripColon (pyStrip (subParens (normDocx cell.text)))) with
      | none => exact rowLoopAux_stop lm fuel cells (i + 1) count hnext
      | some v =>
        dsimp only
        rw [hnext]
        exact rowLoopAux_stop lm fuel cells (i + 1) count hnext

/-- C6: in the table strategy, a two-column row whose first cell matches a
known label gets the value written into the adjacent cell exactly once —
unless the adjacent cell's existing text contains a colon, in which case no
write at all happens to that row. -/
theorem docx_table_write_next_cell (lm : List (String × String)) (id0 id1 : Nat)
    (t0 t1 v : String) (hid : id0 ≠ id1) (h0 : normDocx t0 ≠ "")
    (hm : docxMatch lm (normDocx t0) (rstripColon (pyStrip (subParens (normDocx t0))))
      = some v) :
    ((pyStrip t1 ≠ "" ∧ strContains (pyStrip t1) ":" = true) →
      processTableRow lm [⟨id0, t0⟩, ⟨id1, t1⟩] = ([⟨id0, t0⟩, ⟨id1, t1⟩], 0))
    ∧ (¬(pyStrip t1 ≠ "" ∧ strContains (pyStrip t1) ":" = true) →
      processTableRow lm [⟨id0, t0⟩, ⟨id1, t1⟩] = ([⟨id0, t0⟩, ⟨id1, v⟩], 1)) := by
  have hbeq : (id1 == id0) = false := by
    simp only [beq_eq_false_iff_ne, ne_eq]
    exact fun h => hid h.symm
  have hu : uniqueCells [⟨id0, t0⟩, ⟨id1, t1⟩] = [⟨id0, t0⟩, ⟨id1, t1⟩] := by
    unfold uniqueCells
    simp [uniqueCellsAux, List.contains, List.elem, hbeq]
  have hrow : ∀ res : List DCell × Nat,
      rowLoopAux lm 2 [⟨id0, t0⟩, ⟨id1, t1⟩] 0 0 = res →
      processTableRow lm [⟨id0, t0⟩, ⟨id1, t1⟩] = res := by
    intro res h
    unfold processTableRow
    rw [hu]
    exact h
  constructor
  · rintro ⟨h1, h2⟩
    refine hrow _ ?_
    rw [rowLoopAux]
    simp only [List.getElem?_cons_zero]
    rw [if_neg h0, hm]
    simp only [List.getElem?_cons_succ, List.getElem?_cons_zero]
    dsimp only
    rw [if_pos (by simp [h1, h2])]
    exact rowLoopAux_no_next lm 0 [⟨id0, t0⟩, ⟨id1, t1⟩] 1 0 rfl
  · intro hno
    refine hrow _ ?_
    rw [rowLoopAux]
    simp only [List.getElem?_cons_zero]
    rw [if_neg h0, hm]
    simp only [List.getElem?_cons_succ, List.getElem?_cons_zero]
    dsimp only
    rw [if_neg (by simpa [Decidable.not_and_iff_or_not] using hno)]
    show rowLoopAux lm 1 [⟨id0, t0⟩, ⟨id1, v⟩] 1 1 = ([⟨id0, t0⟩, ⟨id1, v⟩], 1)
    exact rowLoopAux_no_next lm 0 [⟨id0, t0⟩, ⟨id1, v⟩] 1 1 rfl

/-- Witness for C6, covering both testable rows of the claim:
`["Company Name", ""]` is filled exactly once with the value, and
`["Company Name", "Tax ID: "]` is left untouched. -/
theorem docx_table_write_next_cell_witness :
    processTableRow [("company name", "Acme Co")] [⟨0, "Company Name"⟩, ⟨1, ""⟩]
      = ([⟨0, "Company Name"⟩, ⟨1, "Acme Co"⟩], 1)
    ∧ processTableRow [("company name", "Acme Co")] [⟨0, "Company Name"⟩, ⟨1, "Tax ID: "⟩]
      = ([⟨0, "Company Name"⟩, ⟨1, "Tax ID: "⟩], 0) :=
  ⟨(docx_table_write_next_cell [("company name", "Acme Co")] 0 1 "Company Name" "" "Acme Co"
      (by decide) (by decide) (by decide)).2 (by decide),
    (docx_table_write_next_cell [("company name", "Acme Co")] 0 1 "Company Name" "Tax ID: "
      "Acme Co" (by decide) (by decide) (by decide)).1 (by decide)⟩

end FileZap
